import Mathlib

/-!
Shallow embedding of `app.py` (guyko81/date-parse): a Flask service whose core
is a fuzzy date-parsing pipeline (`parse_fuzzy`), a resolver/formatter
(`build_response`), and a path-addressed batch document transformer
(`format_endpoint`).  Python `datetime` values are modelled as civil
components plus an optional UTC offset in minutes; third-party parsing
libraries (`dateutil.parser.isoparse`, `dateparser`) are modelled as total
Lean functions covering the grammar fragments the verified properties
exercise.  Known simplifications, stated where they matter: sub-second
precision is dropped (the code truncates to whole seconds in all rendered
fields), years are unbounded integers (Python restricts to 1..9999 and the
theorems that need it carry explicit year-range hypotheses), and timezones
are a fixed-offset table (DST transitions at the instants exercised are
baked into the offsets).
-/

namespace DateApp

/-- ASCII whitespace recognised by Python's `str.strip()` (the unicode cases
do not occur in any string this development manipulates). -/
def isSpaceChar (c : Char) : Bool :=
  c = ' ' || c = '\t' || c = '\n' || c = '\r' || c = '\x0b' || c = '\x0c'

/-- Python `str.strip()` on a character list. -/
def pyStrip (cs : List Char) : List Char :=
  ((cs.dropWhile isSpaceChar).reverse.dropWhile isSpaceChar).reverse

/-- Decimal digit character for `k % 10`. -/
def digitChar (k : Nat) : Char :=
  match k % 10 with
  | 0 => '0' | 1 => '1' | 2 => '2' | 3 => '3' | 4 => '4'
  | 5 => '5' | 6 => '6' | 7 => '7' | 8 => '8' | _ => '9'

/-- Numeric value of a decimal digit character. -/
def digitVal (c : Char) : Nat := c.toNat - 48

/-- Two-digit zero-padded rendering, as Python's `%02d` for values below 100. -/
def pad2 (n : Nat) : List Char := [digitChar (n / 10 % 10), digitChar (n % 10)]

/-- Four-digit zero-padded rendering, as Python's `%04d` for values below 10000. -/
def pad4 (n : Nat) : List Char :=
  [digitChar (n / 1000 % 10), digitChar (n / 100 % 10), digitChar (n / 10 % 10), digitChar (n % 10)]

/-- Read exactly two decimal digits. -/
def parse2 : List Char → Option (Nat × List Char)
  | a :: b :: rest =>
    if a.isDigit && b.isDigit then some (digitVal a * 10 + digitVal b, rest) else none
  | _ => none

/-- Read exactly four decimal digits. -/
def parse4 : List Char → Option (Nat × List Char)
  | a :: b :: c :: d :: rest =>
    if a.isDigit && b.isDigit && c.isDigit && d.isDigit then
      some (digitVal a * 1000 + digitVal b * 100 + digitVal c * 10 + digitVal d, rest)
    else none
  | _ => none

/-- Consume one expected character. -/
def expectChar (ch : Char) : List Char → Option (List Char)
  | c :: rest => if c = ch then some rest else none
  | _ => none

/-- Gregorian leap-year rule, as Python's `calendar`/`datetime` use it. -/
def isLeap (y : Int) : Bool := (y % 4 = 0 && y % 100 ≠ 0) || y % 400 = 0

/-- Length of a month (month numbers 1..12; other inputs never arise on valid
datetimes). -/
def daysInMonth (y : Int) (m : Nat) : Nat :=
  match m with
  | 2 => if isLeap y then 29 else 28
  | 4 => 30 | 6 => 30 | 9 => 30 | 11 => 30
  | _ => 31

/-- Model of a Python `datetime.datetime` truncated to whole seconds: civil
components plus `tz`, the `utcoffset()` in minutes (`none` = naive). -/
structure Datetime where
  year : Int
  month : Nat
  day : Nat
  hour : Nat
  minute : Nat
  second : Nat
  tz : Option Int
  deriving Repr, DecidableEq

/-- A datetime whose components are in the ranges Python's constructors
enforce (the year bound is stated separately where a theorem needs it). -/
def ValidDT (c : Datetime) : Prop :=
  1 ≤ c.month ∧ c.month ≤ 12 ∧ 1 ≤ c.day ∧ c.day ≤ daysInMonth c.year c.month ∧
    c.hour ≤ 23 ∧ c.minute ≤ 59 ∧ c.second ≤ 59

instance (c : Datetime) : Decidable (ValidDT c) := by unfold ValidDT; infer_instance

/-- A calendar date, as Python's `datetime.date`. -/
structure CivilDate where
  y : Int
  m : Nat
  d : Nat
  deriving Repr, DecidableEq

/-- A date whose month and day are in range. -/
def DateOk (t : CivilDate) : Prop :=
  1 ≤ t.m ∧ t.m ≤ 12 ∧ 1 ≤ t.d ∧ t.d ≤ daysInMonth t.y t.m

instance (t : CivilDate) : Decidable (DateOk t) := by unfold DateOk; infer_instance

/-- Next calendar day. -/
def succD (t : CivilDate) : CivilDate :=
  if t.d < daysInMonth t.y t.m then { t with d := t.d + 1 }
  else if t.m < 12 then { t with m := t.m + 1, d := 1 }
  else ⟨t.y + 1, 1, 1⟩

/-- Previous calendar day. -/
def predD (t : CivilDate) : CivilDate :=
  if 1 < t.d then { t with d := t.d - 1 }
  else if 1 < t.m then { t with m := t.m - 1, d := daysInMonth t.y (t.m - 1) }
  else ⟨t.y - 1, 12, 31⟩

/-- Step the calendar date forward `n` days. -/
def succDs : Nat → CivilDate → CivilDate
  | 0, t => t
  | n + 1, t => succDs n (succD t)

/-- Step the calendar date backward `n` days. -/
def predDs : Nat → CivilDate → CivilDate
  | 0, t => t
  | n + 1, t => predDs n (predD t)

/-- Step the calendar date by a signed number of days. -/
def stepDays (n : Int) (t : CivilDate) : CivilDate :=
  if 0 ≤ n then succDs n.toNat t else predDs (-n).toNat t

/-- Shift a civil datetime by a signed number of minutes, carrying into the
calendar date; this is the civil arithmetic Python performs when converting
an aware datetime between fixed-offset timezones. -/
def addMinutes (c : Datetime) (δ : Int) : Datetime :=
  let t : Int := c.hour * 60 + c.minute + δ
  let q : Int := t / 1440
  let r : Nat := (t % 1440).toNat
  let dd := stepDays q ⟨c.year, c.month, c.day⟩
  ⟨dd.y, dd.m, dd.d, r / 60, r % 60, c.second, c.tz⟩

/-- Model of `datetime.astimezone(tz)` for a fixed-offset target zone given in
minutes.  Every call site in `build_response` passes an aware datetime
(lines 93, 96, 99 attach a tzinfo first); the naive case is modelled as
attaching the target offset without a shift and is unreachable.  Python
additionally raises `OverflowError` when the shifted value leaves the
representable years 1..9999 (uncaught at the app.py line 100 and line 103
call sites); this model's years are unbounded, so the shift is total here,
and the theorems about totality of `build_response` instead carry explicit
year-range hypotheses that keep every conversion representable. -/
def astimezone (c : Datetime) (target : Int) : Datetime :=
  match c.tz with
  | some o => { addMinutes c (target - o) with tz := some target }
  | none => { c with tz := some target }

/-- Model of `datetime.replace(tzinfo=...)`: reinterpret the same civil
components under a new offset. -/
def replaceTz (c : Datetime) (o : Option Int) : Datetime := { c with tz := o }

/-- Days from the civil epoch 1970-01-01 (Howard Hinnant's algorithm, the
arithmetic underlying Python's `datetime.timestamp`). -/
def daysFromCivil (y : Int) (m d : Nat) : Int :=
  let y' : Int := if m ≤ 2 then y - 1 else y
  let era : Int := y'.ediv 400
  let yoe : Int := y' - era * 400
  let mp : Nat := if 2 < m then m - 3 else m + 9
  let doy : Int := (153 * mp + 2) / 5 + d - 1
  let doe : Int := yoe * 365 + yoe.ediv 4 - yoe.ediv 100 + doy
  era * 146097 + doe - 719468

/-- Model of `datetime.timestamp()` (whole seconds) for an aware datetime;
naive datetimes never reach `timestamp()` in `build_response` (the rendered
value is always the result of `astimezone`). -/
def epochSeconds (c : Datetime) : Int :=
  daysFromCivil c.year c.month c.day * 86400 +
    (c.hour * 3600 + c.minute * 60 + c.second : Nat) - (c.tz.getD 0) * 60

/-- The `YYYY-MM-DDTHH:MM:SS` part of `datetime.isoformat()` (microseconds
are zero everywhere the code renders, so the fractional part is absent). -/
def isoformatNoTz (c : Datetime) : List Char :=
  pad4 c.year.toNat ++ '-' :: pad2 c.month ++ '-' :: pad2 c.day ++
    'T' :: pad2 c.hour ++ ':' :: pad2 c.minute ++ ':' :: pad2 c.second

/-- The `±HH:MM` suffix `isoformat()` prints for a fixed offset in minutes. -/
def offsetSuffix (o : Int) : List Char :=
  (if o < 0 then '-' else '+') :: pad2 (o.natAbs / 60) ++ ':' :: pad2 (o.natAbs % 60)

/-- Model of `datetime.isoformat()` on a whole-second datetime. -/
def isoformat (c : Datetime) : List Char :=
  isoformatNoTz c ++ (match c.tz with | none => [] | some o => offsetSuffix o)

/-- Fixed-offset model of `zoneinfo.ZoneInfo`: minutes east of UTC for the
identifiers the development exercises, at the instants exercised
(America/New_York is in DST at the September dates used); any other
identifier is unrecognised, as `ZoneInfo` raising `ZoneInfoNotFoundError`. -/
def zoneInfo : String → Option Int
  | "UTC" => some 0
  | "Etc/UTC" => some 0
  | "America/New_York" => some (-240)
  | "Asia/Tokyo" => some 540
  | "Europe/London" => some 60
  | _ => none

/-- Validated datetime construction: the range checks Python's `datetime`
constructor performs (year at least `MINYEAR = 1`; a four-digit year cannot
exceed `MAXYEAR = 9999`, so no upper check is needed where this is called). -/
def mkValidated (y m d h mi s : Nat) (tz : Option Int) : Option Datetime :=
  if 1 ≤ y ∧ 1 ≤ m ∧ m ≤ 12 ∧ 1 ≤ d ∧ d ≤ daysInMonth y m ∧ h ≤ 23 ∧ mi ≤ 59 ∧ s ≤ 59 then
    some ⟨y, m, d, h, mi, s, tz⟩
  else none

/-- Trailing offset designator of an ISO 8601 datetime: empty (naive), `Z`,
or `±HH:MM` / `±HHMM`, as `dateutil.parser.isoparse` accepts them (an offset
must fit in under 24 hours, as Python's `timezone` requires). -/
def parseIsoOffset : List Char → Option (Option Int)
  | [] => some none
  | ['Z'] => some (some 0)
  | c :: rest =>
    if c = '+' ∨ c = '-' then
      match parse2 rest with
      | some (hh, rest1) =>
        let rest2 := match rest1 with | ':' :: r => r | r => r
        match parse2 rest2 with
        | some (mm, []) =>
          if hh ≤ 23 ∧ mm ≤ 59 then
            some (some (if c = '-' then -(hh * 60 + mm : Int) else (hh * 60 + mm : Int)))
          else none
        | _ => none
      | none => none
    else none

/-- Clock part `HH[:MM[:SS]]` followed by an optional offset, after the `T`
separator, as `dateutil.parser.isoparse` accepts it (fractional seconds,
week dates and compact `YYYYMMDD` forms are outside the modelled fragment;
no verified property depends on them). -/
def parseIsoClock (cs : List Char) : Option (Nat × Nat × Nat × Option Int) := do
  let (h, r1) ← parse2 cs
  match r1 with
  | ':' :: r2 => do
    let (mi, r3) ← parse2 r2
    match r3 with
    | ':' :: r4 => do
      let (s, r5) ← parse2 r4
      let tz ← parseIsoOffset r5
      pure (h, mi, s, tz)
    | _ => do
      let tz ← parseIsoOffset r3
      pure (h, mi, 0, tz)
  | _ => do
    let tz ← parseIsoOffset r1
    pure (h, 0, 0, tz)

/-- Model of `dateutil.parser.isoparse` on the `YYYY-MM-DD[THH[:MM[:SS]]
[offset]]` fragment: returns a validated datetime or declines (the library
raises; `parse_fuzzy` and `build_response` wrap every call in `try`). -/
def isoparse (cs : List Char) : Option Datetime := do
  let (y, r1) ← parse4 cs
  let r2 ← expectChar '-' r1
  let (m, r3) ← parse2 r2
  let r4 ← expectChar '-' r3
  let (d, r5) ← parse2 r4
  match r5 with
  | [] => mkValidated y m d 0 0 0 none
  | 'T' :: r6 => do
    let (h, mi, s, tz) ← parseIsoClock r6
    mkValidated y m d h mi s tz
  | _ => none

/-- Model of `datetime.fromisoformat` at its single call site (app.py line
37), which is guarded by the date-only pattern, so only `YYYY-MM-DD` inputs
reach it: parse and range-check the three fields. -/
def fromisoformat (cs : List Char) : Option Datetime := do
  let (y, r1) ← parse4 cs
  let r2 ← expectChar '-' r1
  let (m, r3) ← parse2 r2
  let r4 ← expectChar '-' r3
  let (d, r5) ← parse2 r4
  match r5 with
  | [] => mkValidated y m d 0 0 0 none
  | _ => none

/-- Word characters for Python's regex `\b` boundary. -/
def wordChar (c : Char) : Bool := c.isAlphanum || c = '_'

/-- Head-of-list match for the core `\d{1,2}:\d{2}` of `TIME_REGEX`
(app.py line 11).  The optional seconds/am-pm tail of the regex is
immaterial: `has_time_part` returns `True` on every control path (line 24),
which `has_time_part_true` below proves, so no theorem depends on the exact
extent matched here. -/
def timeCoreAt : List Char → Bool
  | c1 :: ':' :: c3 :: c4 :: _ => c1.isDigit && c3.isDigit && c4.isDigit
  | c1 :: c2 :: ':' :: c4 :: c5 :: _ => c1.isDigit && c2.isDigit && c4.isDigit && c5.isDigit
  | _ => false

/-- `TIME_REGEX.search`: scan for a word-boundary-preceded clock pattern. -/
def timeSearch : Option Char → List Char → Bool
  | _, [] => false
  | prev, l@(c :: rest) =>
    ((match prev with | none => true | some p => !wordChar p) && timeCoreAt l) ||
      timeSearch (some c) rest

/-- `OFFSET_REGEX.search` (app.py line 12): the regex
`(Z|[+\-]\d{2}:?\d{2})$` is anchored at the end, so it holds exactly when
the string ends in `Z`, `±HH:MM` or `±HHMM`. -/
def offsetSearch (cs : List Char) : Bool :=
  match cs.reverse with
  | [] => false
  | a :: rest =>
    a = 'Z' ||
      (match rest with
       | b :: ':' :: c :: d :: e :: _ =>
         a.isDigit && b.isDigit && c.isDigit && d.isDigit && (e = '+' || e = '-')
       | b :: c :: d :: e :: _ =>
         a.isDigit && b.isDigit && c.isDigit && d.isDigit && (e = '+' || e = '-')
       | _ => false)

/-- Modelled from the spec: the constant `ISO_DATE_ONLY` is referenced at
app.py line 35 but its definition is not in `src/` (the repository's second
pipeline version holds it).  The spec defines the `StrictDateOnly` class as
"a 4-digit-year, 2-digit-month, 2-digit-day pattern with `-` separators and
no time component (`YYYY-MM-DD` exactly)". -/
def isoDateOnlyMatch : List Char → Bool
  | [y1, y2, y3, y4, '-', m1, m2, '-', d1, d2] =>
    y1.isDigit && y2.isDigit && y3.isDigit && y4.isDigit &&
      m1.isDigit && m2.isDigit && d1.isDigit && d2.isDigit
  | _ => false

/-- `re.search(r"\b\d{4}\b", s)` (app.py line 59): an exactly-four-digit run
delimited by word boundaries. -/
def fourDigitRunAt (prev : Option Char) : List Char → Bool
  | c1 :: c2 :: c3 :: c4 :: rest =>
    (match prev with | none => true | some p => !wordChar p) &&
      c1.isDigit && c2.isDigit && c3.isDigit && c4.isDigit &&
      (match rest with | [] => true | c5 :: _ => !wordChar c5)
  | _ => false

/-- Scanner for `\b\d{4}\b`. -/
def fourDigitSearch : Option Char → List Char → Bool
  | _, [] => false
  | prev, l@(c :: rest) => fourDigitRunAt prev l || fourDigitSearch (some c) rest

/-- English month names recognised by the `dateparser` model. -/
def monthNames : List (List Char × Nat) :=
  [("january".data, 1), ("february".data, 2), ("march".data, 3), ("april".data, 4),
   ("may".data, 5), ("june".data, 6), ("july".data, 7), ("august".data, 8),
   ("september".data, 9), ("october".data, 10), ("november".data, 11), ("december".data, 12)]

/-- Split on a separator character, as Python `str.split(sep)`. -/
def splitOnChar (sep : Char) : List Char → List (List Char)
  | [] => [[]]
  | c :: rest =>
    let r := splitOnChar sep rest
    if c = sep then [] :: r
    else
      match r with
      | h :: t => (c :: h) :: t
      | [] => [[c]]

/-- A run of 1 or 2 decimal digits, returned as its value. -/
def smallNum : List Char → Option Nat
  | [a] => if a.isDigit then some (digitVal a) else none
  | [a, b] => if a.isDigit && b.isDigit then some (digitVal a * 10 + digitVal b) else none
  | _ => none

/-- A run of exactly 4 decimal digits, returned as its value. -/
def yearNum : List Char → Option Nat
  | [a, b, c, d] =>
    if a.isDigit && b.isDigit && c.isDigit && d.isDigit then
      some (digitVal a * 1000 + digitVal b * 100 + digitVal c * 10 + digitVal d)
    else none
  | _ => none

/-- Split on ASCII space runs. -/
def splitWs (cs : List Char) : List (List Char) :=
  (splitOnChar ' ' cs).filter (fun t => !t.isEmpty)

/-- Model of `dateparser.parse` (app.py lines 49-56) on the fragment the
verified properties exercise: slash-separated numeric dates `a/b/YYYY`
ordered by `DATE_ORDER` (`DMY` when `prefer_dmy`, else `MDY`, falling back
to the other order when the preferred one is not a real date, as the
library does), and English `<day> <month-name>` / `<month-name> <day>`
phrases without a year, resolved against `RELATIVE_BASE`'s year.  All other
inputs decline; `RETURN_AS_TIMEZONE_AWARE` is false, so results are naive
midnight datetimes. -/
def dateparserParse (cs : List Char) (preferDmy : Bool) (base : Datetime) : Option Datetime :=
  match splitOnChar '/' cs with
  | [a, b, c] =>
    match smallNum a, smallNum b, yearNum c with
    | some x, some y, some yr =>
      let first : Nat × Nat := if preferDmy then (y, x) else (x, y)
      let secnd : Nat × Nat := if preferDmy then (x, y) else (y, x)
      if 1 ≤ first.1 ∧ first.1 ≤ 12 ∧ 1 ≤ first.2 ∧ first.2 ≤ daysInMonth yr first.1 ∧ 1 ≤ yr then
        some ⟨yr, first.1, first.2, 0, 0, 0, none⟩
      else if 1 ≤ secnd.1 ∧ secnd.1 ≤ 12 ∧ 1 ≤ secnd.2 ∧ secnd.2 ≤ daysInMonth yr secnd.1 ∧ 1 ≤ yr then
        some ⟨yr, secnd.1, secnd.2, 0, 0, 0, none⟩
      else none
    | _, _, _ => none
  | _ =>
    match splitWs (cs.map Char.toLower) with
    | [t1, t2] =>
      let tryDayMonth : List Char → List Char → Option Datetime := fun dTok mTok =>
        match smallNum dTok, monthNames.lookup mTok with
        | some d, some m =>
          if 1 ≤ d ∧ d ≤ daysInMonth base.year m then
            some ⟨base.year, m, d, 0, 0, 0, none⟩
          else none
        | _, _ => none
      match tryDayMonth t1 t2 with
      | some dt => some dt
      | none => tryDayMonth t2 t1
    | _ => none

/-- Model of the last-resort `dateutil.parser.parse(..., fuzzy=True)` call
(app.py line 65): modelled as declining on every string.  None of the
verified properties depends on which additional strings the permissive
fuzzy stage accepts; for the concrete witnesses used here (plain words such
as `"hello"`) the real library also fails to find a date. -/
def duFuzzyParse (_cs : List Char) (_preferDmy : Bool) : Option Datetime := none

/-- `has_time_part` (app.py lines 14-24): strip, search for a clock pattern,
otherwise try an ISO parse when a `T` is present — and, on line 24, return
`True` unconditionally for everything that remains. -/
def has_time_part (q : List Char) : Bool :=
  let s := pyStrip q
  if timeSearch none s then true
  else if s.contains 'T' && (isoparse s).isSome then true
  else true

/-- `normalize_date_only` (app.py lines 26-27): midnight of the same civil
date, anchored to UTC. -/
def normalize_date_only (dt : Datetime) : Datetime :=
  ⟨dt.year, dt.month, dt.day, 0, 0, 0, some 0⟩

/-- `parse_fuzzy` (app.py lines 29-67): the ordered candidate-parser chain.
`ref_tz` is accepted and ignored, as in the source; `now` stands for the
`datetime.now()` readings on lines 52 and 60 (taken as a single instant).
The year replacement on line 61 is `datetime.replace(year=...)` modelled
without its range re-check: in this model the replacement is only reachable
with an unchanged year (the no-year phrase forms already carry
`RELATIVE_BASE`'s year). -/
def parse_fuzzy (q : String) (prefer_dmy assume_current_year : Bool)
    (_ref_tz : Option String) (now : Datetime) : Option Datetime :=
  let qs := q.data
  if qs.isEmpty || (pyStrip qs).isEmpty then none
  else
    let s := pyStrip qs
    match (if isoDateOnlyMatch s then fromisoformat s else none) with
    | some dt => some dt
    | none =>
      match (if s.contains 'T' then isoparse s else none) with
      | some dt => some dt
      | none =>
        match dateparserParse s prefer_dmy now with
        | some dt =>
          if assume_current_year && !fourDigitSearch none s then
            some { dt with year := now.year }
          else some dt
        | none => duFuzzyParse s prefer_dmy

/-- Success payload of `build_response` (app.py lines 102-111).  `out_dt` is
the aware datetime the dictionary is rendered from; it is carried so that
properties of the rendering can be stated, and corresponds to the local
variable of the same name rather than to a wire field. -/
structure PResult where
  iso_utc : String
  iso_in_tz : String
  unix_ms : Int
  year : Int
  month : Nat
  day : Nat
  hour : Nat
  minute : Nat
  second : Nat
  has_time : Bool
  out_dt : Datetime
  deriving Repr, DecidableEq

/-- Observable outcome of `build_response`: the `(result, None)` and
`(None, error-dict)` returns, plus `crash` for an exception that escapes the
function (Python lines 97 and 100 convert with `ZoneInfo(out_tz)` outside
any `try`). -/
inductive Outcome where
  | ok (r : PResult)
  | err (msg input : String)
  | crash (reason : String)
  deriving Repr, DecidableEq

/-- The `iso_utc` rendering (app.py line 103): convert to UTC, truncate to
whole seconds, `isoformat()`, and replace the `+00:00` suffix by `Z` (on a
UTC-converted value the offset suffix is the only occurrence of that
substring). -/
def isoUtcString (out_dt : Datetime) : String :=
  ⟨isoformatNoTz (astimezone out_dt 0) ++ ['Z']⟩

/-- The result dictionary (app.py lines 102-111). -/
def mkResult (time_present : Bool) (out_dt : Datetime) : Outcome :=
  .ok { iso_utc := isoUtcString out_dt
        iso_in_tz := ⟨isoformat out_dt⟩
        unix_ms := epochSeconds out_dt * 1000
        year := out_dt.year, month := out_dt.month, day := out_dt.day
        hour := out_dt.hour, minute := out_dt.minute, second := out_dt.second
        has_time := time_present
        out_dt := out_dt }

/-- Lines 97 and 100 of app.py: convert an aware datetime to the output
zone.  `ZoneInfo(out_tz)` is evaluated outside any `try` here, so an
unrecognised `out_tz` is an uncaught `ZoneInfoNotFoundError`; an empty
`out_tz` string is falsy and selects plain UTC. -/
def toOutZone (time_present : Bool) (aware : Datetime) (out_tz : String) : Outcome :=
  if out_tz = "" then mkResult time_present (astimezone aware 0)
  else
    match zoneInfo out_tz with
    | some off => mkResult time_present (astimezone aware off)
    | none => .crash "ZoneInfoNotFoundError"

/-- `build_response` (app.py lines 69-112). -/
def build_response (q : String) (ref_tz : Option String) (out_tz : String)
    (prefer_dmy assume_current_year : Bool) (now : Datetime) : Outcome :=
  match parse_fuzzy q prefer_dmy assume_current_year ref_tz now with
  | none => .err "Could not parse date string" q
  | some parsed =>
    let time_present := has_time_part q.data
    let explicit_offset := offsetSearch (pyStrip q.data)
    let ref_zone : Option Int := ref_tz.bind zoneInfo
    if time_present = false then
      mkResult time_present (normalize_date_only parsed)
    else
      let ref_zone := if ref_zone.isNone && !explicit_offset then some 0 else ref_zone
      if explicit_offset then
        match isoparse q.data with
        | some iso0 =>
          let iso_dt := if iso0.tz.isNone then replaceTz iso0 (some (ref_zone.getD 0)) else iso0
          if out_tz = "" then mkResult time_present (astimezone iso_dt 0)
          else
            match zoneInfo out_tz with
            | some off => mkResult time_present (astimezone iso_dt off)
            | none => toOutZone time_present (replaceTz parsed (some (ref_zone.getD 0))) out_tz
        | none => toOutZone time_present (replaceTz parsed (some (ref_zone.getD 0))) out_tz
      else toOutZone time_present (replaceTz parsed (some (ref_zone.getD 0))) out_tz

/-- Nested JSON-like documents handled by the batch endpoint.  Python's
`None` is `Doc.null`; `_get_by_path` signals a missing path with the very
same value, exactly as the source conflates them. -/
inductive Doc where
  | null
  | bool (b : Bool)
  | int (n : Int)
  | str (s : String)
  | arr (xs : List Doc)
  | obj (kvs : List (String × Doc))

/-- The Python `raw is None` test (app.py line 163). -/
def Doc.isNull : Doc → Bool
  | .null => true
  | _ => false

/-- Key lookup in an object association list (Python `dict` access). -/
def docLookup (kvs : List (String × Doc)) (k : String) : Option Doc :=
  match kvs with
  | [] => none
  | (k1, v) :: rest => if k1 = k then some v else docLookup rest k

/-- Key insertion with Python `dict` semantics: overwriting a present key
keeps its position, a new key is appended. -/
def docInsert (kvs : List (String × Doc)) (k : String) (v : Doc) : List (String × Doc) :=
  match kvs with
  | [] => [(k, v)]
  | (k1, v1) :: rest => if k1 = k then (k, v) :: rest else (k1, v1) :: docInsert rest k v

/-- `_get_by_path` (app.py lines 114-121) on an already-split path: walk
dictionaries, returning Python `None` (= `Doc.null`) when any link is
missing or a non-dict intermediate appears. -/
def getByParts (d : Doc) : List String → Doc
  | [] => d
  | p :: ps =>
    match d with
    | .obj kvs =>
      match docLookup kvs p with
      | some v => getByParts v ps
      | none => .null
    | _ => .null

/-- `_get_by_path` on a dotted path string. -/
def get_by_path (d : Doc) (path : String) : Doc :=
  getByParts d ((splitOnChar '.' path.data).map fun l => (⟨l⟩ : String))

/-- `_set_by_path` (app.py lines 123-130) on an already-split non-empty
path: create/overwrite intermediate keys with fresh dicts when absent or
non-dict, then assign the final key.  A non-dict node at the point of
assignment raises in Python; every call site here reaches only dict nodes,
and that case is modelled as leaving the node unchanged. -/
def setByParts (d : Doc) (v : Doc) : List String → Doc
  | [] => d
  | [last] =>
    match d with
    | .obj kvs => .obj (docInsert kvs last v)
    | _ => d
  | p :: ps =>
    match d with
    | .obj kvs =>
      let child :=
        match docLookup kvs p with
        | some (.obj c) => Doc.obj c
        | _ => Doc.obj []
      .obj (docInsert kvs p (setByParts child v ps))
    | _ => d

/-- `_set_by_path` on a dotted path string. -/
def set_by_path (d : Doc) (path : String) (v : Doc) : Doc :=
  setByParts d v ((splitOnChar '.' path.data).map fun l => (⟨l⟩ : String))

/-- Python truthiness on document values (`parent_obj or {}` on line 182). -/
def pyFalsy : Doc → Bool
  | .null => true
  | .bool b => !b
  | .int n => n = 0
  | .str s => s = ""
  | .arr xs => xs.isEmpty
  | .obj kvs => kvs.isEmpty

/-- Python `str()` of a document value, as applied to the field value on
app.py line 167.  Container reprs are abbreviated: no verified property
stringifies a container into a parseable date. -/
def pyStr : Doc → String
  | .null => "None"
  | .bool true => "True"
  | .bool false => "False"
  | .int n => toString n
  | .str s => s
  | .arr _ => "[...]"
  | .obj _ => "{...}"

/-- Per-path metadata recorded by the batch loop: the `{"error": "missing"}`
dict, the error dict from `build_response`, or the converted result. -/
inductive MetaVal where
  | missing
  | perr (msg input : String)
  | success (r : PResult)
  deriving Repr, DecidableEq

/-- Python dict of per-path metadata, insertion-ordered. -/
abbrev Meta := List (String × MetaVal)

/-- Insertion with Python dict semantics on the metadata mapping. -/
def metaInsert (m : Meta) (k : String) (v : MetaVal) : Meta :=
  match m with
  | [] => [(k, v)]
  | (k1, v1) :: rest => if k1 = k then (k, v) :: rest else (k1, v1) :: metaInsert rest k v

/-- Shared options of one `/format` request (app.py lines 149-154). -/
structure BatchOpts where
  ref_tz : Option String
  out_tz : String
  prefer_dmy : Bool
  assume_current_year : Bool
  replace : Bool
  suffix : String
  now : Datetime

/-- One iteration of the field loop (app.py lines 161-187): read the value
at `path`, skip with a missing-error when it is `None`, run
`build_response` on its string form, and on success write back per the
replace/suffix policy.  A crash in `build_response` escapes the loop. -/
def processField (o : BatchOpts) (data : Doc) (path : String) :
    Except String (Doc × MetaVal) :=
  let raw := get_by_path data path
  if raw.isNull then .ok (data, .missing)
  else
    match build_response (pyStr raw) o.ref_tz o.out_tz o.prefer_dmy o.assume_current_year o.now with
    | .err m i => .ok (data, .perr m i)
    | .crash r => .error r
    | .ok conv =>
      if o.replace then .ok (set_by_path data path (.str conv.iso_in_tz), .success conv)
      else
        if path.data.contains '.' then
          let parts := (splitOnChar '.' path.data).map fun l => (⟨l⟩ : String)
          let parent := String.intercalate "." parts.dropLast
          let leaf := parts.getLast! ++ o.suffix
          let g := get_by_path data parent
          let parent_obj := if pyFalsy g then Doc.obj [] else g
          let parent_obj :=
            match parent_obj with
            | .obj kvs => Doc.obj (docInsert kvs leaf (.str conv.iso_in_tz))
            | other => other
          .ok (set_by_path data parent parent_obj, .success conv)
        else
          match data with
          | .obj kvs => .ok (.obj (docInsert kvs (path ++ o.suffix) (.str conv.iso_in_tz)), .success conv)
          | other => .ok (other, .success conv)

/-- The field loop of one batch item (app.py lines 159-187), threading the
working copy of `data` and the metadata dict. -/
def processFields (o : BatchOpts) (data : Doc) (fields : List String) (meta : Meta) :
    Except String (Doc × Meta) :=
  match fields with
  | [] => .ok (data, meta)
  | p :: ps =>
    match processField o data p with
    | .error e => .error e
    | .ok (d1, mv) => processFields o d1 ps (metaInsert meta p mv)

/-- One batch item (app.py lines 157-189): `deepcopy` is the identity in a
pure model — the caller's structure is never aliased — and the loop starts
from an empty metadata dict. -/
def processItem (o : BatchOpts) (data : Doc) (fields : List String) :
    Except String (Doc × Meta) :=
  processFields o data fields []

/-- The `/format` endpoint body (app.py lines 156-191) over all items; a
crash on any field aborts the request. -/
def transformBatch (o : BatchOpts) (items : List (Doc × List String)) :
    Except String (List (Doc × Meta)) :=
  match items with
  | [] => .ok []
  | (data, fields) :: rest =>
    match processItem o data fields with
    | .error e => .error e
    | .ok r =>
      match transformBatch o rest with
      | .error e => .error e
      | .ok rs => .ok (r :: rs)

/-- Projection of a successful outcome's `iso_utc` field. -/
def Outcome.isoUtc? : Outcome → Option String
  | .ok r => some r.iso_utc
  | _ => none

/-- Projection of a successful outcome's `iso_in_tz` field. -/
def Outcome.isoInTz? : Outcome → Option String
  | .ok r => some r.iso_in_tz
  | _ => none

/-- Projection of a successful outcome's `has_time` field. -/
def Outcome.hasTime? : Outcome → Option Bool
  | .ok r => some r.has_time
  | _ => none

/-- An outcome is the `(None, error-dict)` return of `build_response`. -/
def Outcome.isErr : Outcome → Bool
  | .err _ _ => true
  | _ => false

/-- Keys of a metadata mapping, in insertion order. -/
def metaKeys (r : Except String (Doc × Meta)) : List String :=
  match r with
  | .ok (_, m) => m.map Prod.fst
  | .error _ => []

/-- Document part of a batch-item result. -/
def itemData (r : Except String (Doc × Meta)) : Option Doc :=
  match r with
  | .ok (d, _) => some d
  | .error _ => none

/-- Insertion-ordered set of a field list: each path once, at its first
occurrence — the key order a Python dict ends up with. -/
def addKeys (acc : List String) : List String → List String
  | [] => acc
  | p :: ps => addKeys (if p ∈ acc then acc else acc ++ [p]) ps

/-- First-occurrence key list of a batch request's field paths. -/
def firstKeys (fields : List String) : List String := addKeys [] fields

/-- The fixed reference instants used by concrete witnesses (stand-ins for
`datetime.now()` readings in two different years). -/
def now2025 : Datetime := ⟨2025, 6, 1, 12, 0, 0, none⟩

/-- A reference instant one year later. -/
def now2026 : Datetime := ⟨2026, 6, 1, 12, 0, 0, none⟩

theorem digitVal_digitChar {k : Nat} (h : k < 10) : digitVal (digitChar k) = k := by
  interval_cases k <;> rfl

theorem isDigit_digitChar (k : Nat) : (digitChar k).isDigit = true := by
  unfold digitChar
  split <;> rfl

theorem isSpace_digitChar (k : Nat) : isSpaceChar (digitChar k) = false := by
  unfold digitChar
  split <;> rfl

theorem parse2_pad2 {n : Nat} (h : n ≤ 99) (rest : List Char) :
    parse2 (pad2 n ++ rest) = some (n, rest) := by
  have h1 : n / 10 % 10 < 10 := Nat.mod_lt _ (by omega)
  have h2 : n % 10 < 10 := Nat.mod_lt _ (by omega)
  simp only [pad2, List.cons_append, List.nil_append, parse2, isDigit_digitChar,
    Bool.and_self, if_pos, digitVal_digitChar h1, digitVal_digitChar h2]
  have : n / 10 % 10 * 10 + n % 10 = n := by omega
  simp [this]

theorem parse4_pad4 {n : Nat} (h : n ≤ 9999) (rest : List Char) :
    parse4 (pad4 n ++ rest) = some (n, rest) := by
  have h1 : n / 1000 % 10 < 10 := Nat.mod_lt _ (by omega)
  have h2 : n / 100 % 10 < 10 := Nat.mod_lt _ (by omega)
  have h3 : n / 10 % 10 < 10 := Nat.mod_lt _ (by omega)
  have h4 : n % 10 < 10 := Nat.mod_lt _ (by omega)
  simp only [pad4, List.cons_append, List.nil_append, parse4, isDigit_digitChar,
    Bool.and_self, if_pos, digitVal_digitChar h1, digitVal_digitChar h2,
    digitVal_digitChar h3, digitVal_digitChar h4]
  have : n / 1000 % 10 * 1000 + n / 100 % 10 * 100 + n / 10 % 10 * 10 + n % 10 = n := by omega
  simp [this]

theorem dropWhile_eq_self_of {p : Char → Bool} {l : List Char}
    (h : ∀ c ∈ l, p c = false) : l.dropWhile p = l := by
  cases l with
  | nil => rfl
  | cons a t => simp [List.dropWhile_cons, h a (by simp)]

theorem pyStrip_eq_self {cs : List Char} (h : ∀ c ∈ cs, isSpaceChar c = false) :
    pyStrip cs = cs := by
  unfold pyStrip
  rw [dropWhile_eq_self_of h, dropWhile_eq_self_of (by intro c hc; exact h c (by simpa using hc))]
  simp

theorem has_time_part_true (q : List Char) : has_time_part q = true := by
  unfold has_time_part
  simp only [ite_self]

theorem daysInMonth_pos (y : Int) (m : Nat) : 1 ≤ daysInMonth y m := by
  unfold daysInMonth
  split
  · split <;> omega
  all_goals omega

theorem dateOk_mk {y : Int} {m d : Nat} :
    DateOk ⟨y, m, d⟩ ↔ 1 ≤ m ∧ m ≤ 12 ∧ 1 ≤ d ∧ d ≤ daysInMonth y m := Iff.rfl

theorem validDT_mk {y : Int} {m d hh mi s : Nat} {tz : Option Int} :
    ValidDT ⟨y, m, d, hh, mi, s, tz⟩ ↔
      1 ≤ m ∧ m ≤ 12 ∧ 1 ≤ d ∧ d ≤ daysInMonth y m ∧ hh ≤ 23 ∧ mi ≤ 59 ∧ s ≤ 59 := Iff.rfl

theorem civilDate_eta (t : CivilDate) : (⟨t.y, t.m, t.d⟩ : CivilDate) = t := rfl

theorem succD_ok {t : CivilDate} (h : DateOk t) : DateOk (succD t) := by
  obtain ⟨y, m, d⟩ := t
  rw [dateOk_mk] at h
  obtain ⟨h1, h2, h3, h4⟩ := h
  unfold succD
  dsimp only
  split_ifs with hd hm
  · exact dateOk_mk.mpr ⟨h1, h2, by omega, by omega⟩
  · exact dateOk_mk.mpr ⟨by omega, by omega, by omega, daysInMonth_pos y (m + 1)⟩
  · exact dateOk_mk.mpr ⟨by omega, by omega, by omega, daysInMonth_pos (y + 1) 1⟩

theorem predD_ok {t : CivilDate} (h : DateOk t) : DateOk (predD t) := by
  obtain ⟨y, m, d⟩ := t
  rw [dateOk_mk] at h
  obtain ⟨h1, h2, h3, h4⟩ := h
  unfold predD
  dsimp only
  split_ifs with hd hm
  · exact dateOk_mk.mpr ⟨h1, h2, by omega, by omega⟩
  · exact dateOk_mk.mpr ⟨by omega, by omega, daysInMonth_pos y (m - 1), le_refl _⟩
  · exact dateOk_mk.mpr ⟨by omega, by omega, by omega, by rw [show daysInMonth (y - 1) 12 = 31 from rfl]⟩

theorem predD_succD {t : CivilDate} (h : DateOk t) : predD (succD t) = t := by
  obtain ⟨y, m, d⟩ := t
  rw [dateOk_mk] at h
  obtain ⟨h1, h2, h3, h4⟩ := h
  unfold succD
  dsimp only
  split_ifs with hd hm
  · unfold predD
    dsimp only
    rw [if_pos (by omega)]
    simp only [Nat.add_sub_cancel]
  · unfold predD
    dsimp only
    rw [if_neg (by omega), if_pos (by omega)]
    simp only [Nat.add_sub_cancel]
    congr 1
    omega
  · have hm12 : m = 12 := by omega
    have hd31 : d = 31 := by
      subst hm12
      have h31 : daysInMonth y 12 = 31 := rfl
      omega
    unfold predD
    dsimp only
    rw [if_neg (by omega), if_neg (by omega)]
    congr 1 <;> omega

theorem succD_predD {t : CivilDate} (h : DateOk t) : succD (predD t) = t := by
  obtain ⟨y, m, d⟩ := t
  rw [dateOk_mk] at h
  obtain ⟨h1, h2, h3, h4⟩ := h
  unfold predD
  dsimp only
  split_ifs with hd hm
  · unfold succD
    dsimp only
    rw [if_pos (by omega)]
    congr 1
    omega
  · unfold succD
    dsimp only
    rw [if_neg (by omega), if_pos (by omega)]
    congr 1 <;> omega
  · have hm1 : m = 1 := by omega
    have hd1 : d = 1 := by omega
    unfold succD
    dsimp only
    have h31 : daysInMonth (y - 1) 12 = 31 := rfl
    rw [if_neg (by omega), if_neg (by omega)]
    congr 1 <;> omega

theorem succDs_ok {t : CivilDate} (h : DateOk t) (n : Nat) : DateOk (succDs n t) := by
  induction n generalizing t with
  | zero => exact h
  | succ k ih => exact ih (succD_ok h)

theorem predDs_ok {t : CivilDate} (h : DateOk t) (n : Nat) : DateOk (predDs n t) := by
  induction n generalizing t with
  | zero => exact h
  | succ k ih => exact ih (predD_ok h)

theorem succDs_succD (n : Nat) (t : CivilDate) : succDs n (succD t) = succD (succDs n t) := by
  induction n generalizing t with
  | zero => rfl
  | succ k ih => simpa [succDs] using ih (succD t)

theorem predDs_predD (n : Nat) (t : CivilDate) : predDs n (predD t) = predD (predDs n t) := by
  induction n generalizing t with
  | zero => rfl
  | succ k ih => simpa [predDs] using ih (predD t)

theorem predDs_succDs {t : CivilDate} (h : DateOk t) (n : Nat) :
    predDs n (succDs n t) = t := by
  induction n generalizing t with
  | zero => rfl
  | succ k ih =>
    show predDs k (predD (succDs k (succD t))) = t
    rw [succDs_succD, predD_succD (succDs_ok h k)]
    exact ih h

theorem succDs_predDs {t : CivilDate} (h : DateOk t) (n : Nat) :
    succDs n (predDs n t) = t := by
  induction n generalizing t with
  | zero => rfl
  | succ k ih =>
    show succDs k (succD (predDs k (predD t))) = t
    rw [predDs_predD, succD_predD (predDs_ok h k)]
    exact ih h

theorem stepDays_ok {t : CivilDate} (h : DateOk t) (n : Int) : DateOk (stepDays n t) := by
  unfold stepDays
  split
  · exact succDs_ok h _
  · exact predDs_ok h _

theorem stepDays_cancel {t : CivilDate} (h : DateOk t) (n : Int) :
    stepDays (-n) (stepDays n t) = t := by
  rcases lt_trichotomy n 0 with hn | hn | hn
  · rw [show stepDays n t = predDs (-n).toNat t from by
        unfold stepDays; rw [if_neg (by omega)]]
    rw [show stepDays (-n) (predDs (-n).toNat t) = succDs (-n).toNat (predDs (-n).toNat t) from by
        unfold stepDays; rw [if_pos (by omega)]]
    exact succDs_predDs h _
  · subst hn
    rfl
  · rw [show stepDays n t = succDs n.toNat t from by
        unfold stepDays; rw [if_pos (by omega)]]
    rw [show stepDays (-n) (succDs n.toNat t) = predDs (- -n).toNat (succDs n.toNat t) from by
        unfold stepDays; rw [if_neg (by omega)]]
    rw [show (- -n).toNat = n.toNat from by omega]
    exact predDs_succDs h _

theorem addMinutes_cancel {c : Datetime} (h : ValidDT c) (δ : Int) :
    addMinutes (addMinutes c δ) (-δ) = c := by
  obtain ⟨y, mo, d, hh, mi, s, tz⟩ := c
  rw [validDT_mk] at h
  obtain ⟨v1, v2, v3, v4, v5, v6, v7⟩ := h
  unfold addMinutes
  dsimp only
  rw [civilDate_eta]
  have e1 : (↑(((↑hh * 60 + ↑mi + δ) % 1440).toNat / 60) * 60 +
      ↑(((↑hh * 60 + ↑mi + δ) % 1440).toNat % 60) + -δ : Int) =
      ↑hh * 60 + ↑mi - 1440 * ((↑hh * 60 + ↑mi + δ) / 1440) := by omega
  rw [e1]
  have e2 : ((↑hh * 60 + ↑mi - 1440 * ((↑hh * 60 + ↑mi + δ) / 1440) : Int)) / 1440 =
      -((↑hh * 60 + ↑mi + δ) / 1440) := by omega
  have e3 : ((↑hh * 60 + ↑mi - 1440 * ((↑hh * 60 + ↑mi + δ) / 1440) : Int)) % 1440 =
      ↑hh * 60 + ↑mi := by omega
  rw [e2, e3]
  rw [stepDays_cancel (dateOk_mk.mpr ⟨v1, v2, v3, v4⟩) _]
  have e4 : ((↑hh * 60 + ↑mi : Int)).toNat = hh * 60 + mi := by omega
  rw [e4]
  congr 1 <;> omega

theorem addMinutes_tz (c : Datetime) (δ : Int) : (addMinutes c δ).tz = c.tz := rfl

theorem astimezone_tz (c : Datetime) (t : Int) : (astimezone c t).tz = some t := by
  unfold astimezone
  cases c.tz <;> rfl

theorem addMinutes_hour_lt (c : Datetime) (δ : Int) : (addMinutes c δ).hour ≤ 23 := by
  show ((c.hour * 60 + c.minute + δ) % 1440).toNat / 60 ≤ 23
  have h1 : (0 : Int) ≤ (c.hour * 60 + c.minute + δ) % 1440 := Int.emod_nonneg _ (by norm_num)
  have h2 : (c.hour * 60 + c.minute + δ) % 1440 < 1440 := Int.emod_lt_of_pos _ (by norm_num)
  omega

theorem addMinutes_minute_lt (c : Datetime) (δ : Int) : (addMinutes c δ).minute ≤ 59 := by
  show ((c.hour * 60 + c.minute + δ) % 1440).toNat % 60 ≤ 59
  omega

theorem addMinutes_valid {c : Datetime} (h : ValidDT c) (δ : Int) : ValidDT (addMinutes c δ) := by
  obtain ⟨y, mo, d, hh, mi, s, tz⟩ := c
  rw [validDT_mk] at h
  obtain ⟨v1, v2, v3, v4, v5, v6, v7⟩ := h
  have hstep := stepDays_ok (t := ⟨y, mo, d⟩) (dateOk_mk.mpr ⟨v1, v2, v3, v4⟩)
    ((↑hh * 60 + ↑mi + δ) / 1440)
  have hh23 := addMinutes_hour_lt ⟨y, mo, d, hh, mi, s, tz⟩ δ
  have hm59 := addMinutes_minute_lt ⟨y, mo, d, hh, mi, s, tz⟩ δ
  unfold addMinutes at hh23 hm59 ⊢
  dsimp only at hh23 hm59 ⊢
  obtain ⟨k1, k2, k3, k4⟩ := hstep
  exact ⟨k1, k2, k3, k4, hh23, hm59, v7⟩

theorem astimezone_valid {c : Datetime} (h : ValidDT c) (t : Int) :
    ValidDT (astimezone c t) := by
  unfold astimezone
  cases htz : c.tz with
  | none =>
    obtain ⟨v1, v2, v3, v4, v5, v6, v7⟩ := h
    exact ⟨v1, v2, v3, v4, v5, v6, v7⟩
  | some o =>
    have := addMinutes_valid h (t - o)
    obtain ⟨v1, v2, v3, v4, v5, v6, v7⟩ := this
    exact ⟨v1, v2, v3, v4, v5, v6, v7⟩

theorem addMinutes_set_tz (c : Datetime) (δ : Int) (w : Option Int) :
    addMinutes { c with tz := w } δ = { addMinutes c δ with tz := w } := rfl

theorem astimezone_cancel {c : Datetime} (h : ValidDT c) (h0 : c.tz = some 0) (z : Int) :
    astimezone (astimezone c z) 0 = c := by
  unfold astimezone
  rw [h0]
  dsimp only
  rw [show z - 0 = z from by omega, show (0 : Int) - z = -z from by omega]
  rw [addMinutes_set_tz]
  rw [addMinutes_cancel h z]
  rw [← h0]

theorem pad2_no_space {c : Char} {n : Nat} (h : c ∈ pad2 n) : isSpaceChar c = false := by
  simp only [pad2, List.mem_cons, List.not_mem_nil, or_false] at h
  rcases h with rfl | rfl <;> exact isSpace_digitChar _

theorem pad4_no_space {c : Char} {n : Nat} (h : c ∈ pad4 n) : isSpaceChar c = false := by
  simp only [pad4, List.mem_cons, List.not_mem_nil, or_false] at h
  rcases h with rfl | rfl | rfl | rfl <;> exact isSpace_digitChar _

theorem isoZ_no_space (u : Datetime) :
    ∀ c ∈ isoformatNoTz u ++ ['Z'], isSpaceChar c = false := by
  intro c hc
  rw [isoformatNoTz] at hc
  simp only [List.mem_append, List.mem_cons, List.not_mem_nil, or_false] at hc
  casesm* _ ∨ _
  all_goals
    rename_i h
  all_goals
    first
    | exact pad4_no_space h
    | exact pad2_no_space h
    | (subst h; rfl)

theorem isoformatNoTz_length (u : Datetime) : (isoformatNoTz u).length = 19 := by
  simp [isoformatNoTz, pad4, pad2]

theorem isoDateOnlyMatch_length {l : List Char} (h : isoDateOnlyMatch l = true) :
    l.length = 10 := by
  unfold isoDateOnlyMatch at h
  split at h
  · simp
  · exact absurd h (by simp)

theorem daysInMonth_le31 (y : Int) (m : Nat) : daysInMonth y m ≤ 31 := by
  unfold daysInMonth
  split
  · split <;> omega
  all_goals omega

theorem expectChar_self (ch : Char) (rest : List Char) :
    expectChar ch (ch :: rest) = some rest := by simp [expectChar]

theorem parseIsoOffset_z : parseIsoOffset ['Z'] = some (some 0) := rfl

theorem isoparse_render {u : Datetime} (hv : ValidDT u) (h1 : 1 ≤ u.year)
    (h2 : u.year ≤ 9999) :
    isoparse (isoformatNoTz u ++ ['Z']) = some { u with tz := some 0 } := by
  obtain ⟨y, mo, d, hh, mi, s, tz⟩ := u
  rw [validDT_mk] at hv
  obtain ⟨v1, v2, v3, v4, v5, v6, v7⟩ := hv
  have hy1 : (1 : Int) ≤ y := h1
  have hy2 : y ≤ 9999 := h2
  have hY : ((y.toNat : Int)) = y := Int.toNat_of_nonneg (by omega)
  have hY9 : y.toNat ≤ 9999 := by omega
  rw [isoformatNoTz]
  dsimp only
  simp only [List.append_assoc, List.cons_append]
  rw [isoparse]
  have hd99 : d ≤ 99 := le_trans v4 (le_trans (daysInMonth_le31 y mo) (by omega))
  simp only [parse4_pad4 hY9, parse2_pad2 (show mo ≤ 99 by omega),
    parse2_pad2 hd99, parse2_pad2 (show hh ≤ 99 by omega),
    parse2_pad2 (show mi ≤ 99 by omega), parse2_pad2 (show s ≤ 99 by omega),
    expectChar_self, Option.bind_eq_bind', Option.some_bind, parseIsoClock,
    parseIsoOffset_z, Option.pure_def]
  unfold mkValidated
  rw [if_pos (show (1 ≤ y.toNat ∧ 1 ≤ mo ∧ mo ≤ 12 ∧ 1 ≤ d ∧
      d ≤ daysInMonth ↑y.toNat mo ∧ hh ≤ 23 ∧ mi ≤ 59 ∧ s ≤ 59) from
    ⟨by omega, v1, v2, v3, by rw [hY]; exact v4, v5, v6, v7⟩)]
  rw [hY]

/-- C2 (code bug): for the input `"2025-09-15"` with default options the
rendered `iso_utc` is `"2025-09-15T00:00:00Z"` as the claim states, but the
`has_time` flag is `True`, not `false`: `has_time_part` (app.py lines
14-24) ends in an unconditional `return True`, so a pure date is reported
as time-bearing. -/
theorem c2_prop :
    (build_response "2025-09-15" none "UTC" true true now2025).isoUtc? =
        some "2025-09-15T00:00:00Z" ∧
      (build_response "2025-09-15" none "UTC" true true now2025).hasTime? = some true := by
  constructor <;> rfl

/-- C3 (code bug): for the date-only input `"2025-09-15"` with target zone
`America/New_York`, the UTC rendering carries the civil date `2025-09-15`
but the target-zone rendering is `2025-09-14T20:00:00-04:00` — the
calendar date shifts across a day boundary, because the constant-`True`
`has_time_part` makes `build_response` bypass `normalize_date_only` and
apply timezone conversion to midnight UTC. -/
theorem c3_prop :
    (build_response "2025-09-15" none "America/New_York" true true now2025).isoUtc? =
        some "2025-09-15T00:00:00Z" ∧
      (build_response "2025-09-15" none "America/New_York" true true now2025).isoInTz? =
        some "2025-09-14T20:00:00-04:00" := by
  constructor <;> rfl

/-- C4 counterexample: an unrecognised target timezone is not degraded to
UTC: resolution of the parseable input `"2025-09-15"` with
`out_tz = "Not/AZone"` raises `ZoneInfoNotFoundError` (app.py line 100). -/
theorem c4_counterexample :
    build_response "2025-09-15" none "Not/AZone" true true now2025 =
      .crash "ZoneInfoNotFoundError" := by
  rfl

/-- C6 counterexample: parsing is not deterministic across invocations with
identical input and options — the no-year input `"15 March"` resolves
against `datetime.now()` (app.py lines 52 and 60), so two runs in different
years give different results. -/
theorem c6_counterexample :
    build_response "15 March" none "UTC" true true now2025 ≠
      build_response "15 March" none "UTC" true true now2026 := by
  decide

theorem parse_fuzzy_ref (q : String) (p a : Bool) (r1 r2 : Option String) (now : Datetime) :
    parse_fuzzy q p a r1 now = parse_fuzzy q p a r2 now := rfl

/-- C4 (amended): an unrecognised `referenceTimezone` is degraded to absent
(app.py lines 77-82): the response is identical to the one with no
reference zone at all, for every input and every other option.  (The same
is not true of `targetTimezone` — see the counterexample.) -/
theorem c4_prop (q : String) (ref : String) (out_tz : String)
    (p a : Bool) (now : Datetime) (h : zoneInfo ref = none) :
    build_response q (some ref) out_tz p a now = build_response q none out_tz p a now := by
  rw [build_response, build_response]
  rw [parse_fuzzy_ref q p a (some ref) none now]
  rw [show (some ref).bind zoneInfo = (none : Option String).bind zoneInfo from by simp [h]]

/-- Witness for C4: the unrecognised reference zone `"Bad/Zone"` behaves as
an absent one on `"2025-09-15"`. -/
theorem c4_witness :
    build_response "2025-09-15" (some "Bad/Zone") "UTC" true true now2025 =
      build_response "2025-09-15" none "UTC" true true now2025 :=
  c4_prop "2025-09-15" "Bad/Zone" "UTC" true true now2025 rfl

/-- An input handled by the strict-ISO or ISO-datetime stages, before any
stage that consults the clock. -/
def nowFree (q : String) : Bool :=
  let s := pyStrip q.data
  (isoDateOnlyMatch s && (fromisoformat s).isSome) || (s.contains 'T' && (isoparse s).isSome)

/-- C6 (amended): `build_response` is deterministic in input and options
once the `datetime.now()` reading is fixed — and for inputs resolved by
the strict ISO stages (which never consult the clock) the result is
independent of the current moment altogether.  For clock-dependent inputs
(no-year phrases, relative dates) two invocations at different times can
differ, as the counterexample shows. -/
theorem c6_prop (q : String) (ref_tz : Option String) (out_tz : String)
    (p a : Bool) (n1 n2 : Datetime) (h : nowFree q = true) :
    build_response q ref_tz out_tz p a n1 = build_response q ref_tz out_tz p a n2 := by
  have hp : parse_fuzzy q p a ref_tz n1 = parse_fuzzy q p a ref_tz n2 := by
    rw [parse_fuzzy, parse_fuzzy]
    dsimp only
    split
    · rfl
    · unfold nowFree at h
      rw [Bool.or_eq_true] at h
      cases hs1 : (if isoDateOnlyMatch (pyStrip q.data) = true
          then fromisoformat (pyStrip q.data) else none) with
      | some dt => rfl
      | none =>
        rcases h with h1 | h2
        · rw [Bool.and_eq_true] at h1
          rw [if_pos h1.1, Option.isSome_iff_exists] at *
          obtain ⟨dt, hdt⟩ := h1.2
          rw [hdt] at hs1
          exact absurd hs1 (by simp)
        · rw [Bool.and_eq_true] at h2
          obtain ⟨dt, hdt⟩ := Option.isSome_iff_exists.mp h2.2
          rw [if_pos h2.1, hdt]
  rw [build_response, build_response, hp]

/-- Witness for C6's amended claim: a `T`-separated ISO input gives the
same response under clock readings a year apart. -/
theorem c6_witness :
    build_response "2025-09-15T10:00:00Z" none "UTC" true true now2025 =
      build_response "2025-09-15T10:00:00Z" none "UTC" true true now2026 :=
  c6_prop "2025-09-15T10:00:00Z" none "UTC" true true now2025 now2026 rfl

/-- The shared batch options exercised by the batch-transform theorems:
default parse options, `replace = False`, `suffix = "_utc"`. -/
def defaultBatchOpts : BatchOpts := ⟨none, "UTC", true, true, false, "_utc", now2025⟩

/-- C9: the batch item `{data: {"event": {"when": "2025-01-01"}},
fields: ["event.when"]}` with `replace = False` and `suffix = "_utc"`
produces a document holding both the untouched original at `event.when`
and the resolved ISO string at the sibling key `event.when_utc`. -/
theorem c9_prop :
    (itemData (processItem defaultBatchOpts
        (.obj [("event", .obj [("when", .str "2025-01-01")])]) ["event.when"])).map
        (fun d => (get_by_path d "event.when", get_by_path d "event.when_utc")) =
      some (.str "2025-01-01", .str "2025-01-01T00:00:00+00:00") := by
  rfl

/-- C10: a path whose final key holds `None` is indistinguishable from an
absent one — `_get_by_path` returns Python `None` for both — so the field
loop records a missing-field error for it, leaves the document untouched,
and continues with the remaining paths. -/
theorem c10_prop (o : BatchOpts) (data : Doc) (p : String) (ps : List String) (meta : Meta)
    (h : (get_by_path data p).isNull = true) :
    processFields o data (p :: ps) meta =
      processFields o data ps (metaInsert meta p .missing) := by
  rw [processFields]
  rw [show processField o data p = .ok (data, .missing) from by
    unfold processField
    dsimp only
    rw [if_pos h]]

/-- Witness for C10: a document whose key `k` holds `None` is skipped with
a missing-field entry and the next path is still processed. -/
theorem c10_witness :
    processFields defaultBatchOpts (.obj [("k", .null), ("w", .str "x")]) ["k", "w"] [] =
      processFields defaultBatchOpts (.obj [("k", .null), ("w", .str "x")]) ["w"]
        (metaInsert [] "k" .missing) :=
  c10_prop defaultBatchOpts (.obj [("k", .null), ("w", .str "x")]) "k" ["w"] [] rfl

/-- C8 counterexample: metadata is a Python dict keyed by the path string,
so a duplicated requested path collapses to a single entry — the mapping
does not contain one entry per requested path. -/
theorem c8_counterexample :
    metaKeys (processItem defaultBatchOpts (.obj []) ["a", "a"]) ≠ ["a", "a"] := by
  decide

theorem metaInsert_keys (m : Meta) (k : String) (v : MetaVal) :
    (metaInsert m k v).map Prod.fst =
      if k ∈ m.map Prod.fst then m.map Prod.fst else m.map Prod.fst ++ [k] := by
  induction m with
  | nil => simp [metaInsert]
  | cons kv rest ih =>
    obtain ⟨k1, v1⟩ := kv
    by_cases hk : k1 = k
    · subst hk
      simp [metaInsert]
    · rw [metaInsert]
      rw [if_neg hk]
      simp only [List.map_cons, List.mem_cons, ih]
      by_cases hmem : k ∈ rest.map Prod.fst
      · rw [if_pos hmem, if_pos (Or.inr hmem)]
      · rw [if_neg hmem, if_neg (by rintro (h1 | h2); exact hk h1.symm; exact hmem h2)]
        simp

theorem processFields_allFail (o : BatchOpts) (fields : List String) :
    ∀ (data : Doc) (meta : Meta),
    (∀ p ∈ fields, (get_by_path data p).isNull = true ∨
        (build_response (pyStr (get_by_path data p)) o.ref_tz o.out_tz o.prefer_dmy
          o.assume_current_year o.now).isErr = true) →
    ∃ m, processFields o data fields meta = .ok (data, m) ∧
      m.map Prod.fst = addKeys (meta.map Prod.fst) fields := by
  induction fields with
  | nil => exact fun data meta _ => ⟨meta, rfl, rfl⟩
  | cons p ps ih =>
    intro data meta h
    have hrest : ∀ p' ∈ ps, (get_by_path data p').isNull = true ∨
        (build_response (pyStr (get_by_path data p')) o.ref_tz o.out_tz o.prefer_dmy
          o.assume_current_year o.now).isErr = true :=
      fun p' hp' => h p' (List.mem_cons_of_mem _ hp')
    have hkeys : addKeys (meta.map Prod.fst) (p :: ps) =
        addKeys ((metaInsert meta p .missing).map Prod.fst) ps := by
      rw [addKeys, metaInsert_keys]
    have hkeys2 : ∀ v, addKeys (meta.map Prod.fst) (p :: ps) =
        addKeys ((metaInsert meta p v).map Prod.fst) ps := by
      intro v
      rw [addKeys, metaInsert_keys]
    by_cases hnull : (get_by_path data p).isNull = true
    · have hpf : processField o data p = .ok (data, .missing) := by
        unfold processField
        dsimp only
        rw [if_pos hnull]
      rw [processFields, hpf]
      obtain ⟨m, hm, hk⟩ := ih data (metaInsert meta p .missing) hrest
      exact ⟨m, hm, by rw [hk, ← hkeys2]⟩
    · have herr := (h p (List.mem_cons_self _ _)).resolve_left hnull
      cases hb : build_response (pyStr (get_by_path data p)) o.ref_tz o.out_tz o.prefer_dmy
          o.assume_current_year o.now with
      | ok r => rw [hb] at herr; exact absurd herr (by simp [Outcome.isErr])
      | crash r => rw [hb] at herr; exact absurd herr (by simp [Outcome.isErr])
      | err msg inp =>
        have hpf : processField o data p = .ok (data, .perr msg inp) := by
          unfold processField
          dsimp only
          rw [if_neg hnull, hb]
        rw [processFields, hpf]
        obtain ⟨m, hm, hk⟩ := ih data (metaInsert meta p (.perr msg inp)) hrest
        exact ⟨m, hm, by rw [hk, ← hkeys2]⟩

/-- C8 (amended): for a document none of whose requested paths resolves to
a parseable value, the output document is equal to the input (the
transformer works on its own copy and writes nothing), and the metadata
mapping has exactly one entry per distinct requested path, keyed in
first-occurrence order — duplicated path requests collapse into a single
dict entry, which is the one divergence from the claim as stated. -/
theorem c8_prop (o : BatchOpts) (data : Doc) (fields : List String)
    (h : ∀ p ∈ fields, (get_by_path data p).isNull = true ∨
        (build_response (pyStr (get_by_path data p)) o.ref_tz o.out_tz o.prefer_dmy
          o.assume_current_year o.now).isErr = true) :
    ∃ m, processItem o data fields = .ok (data, m) ∧
      m.map Prod.fst = firstKeys fields :=
  processFields_allFail o fields data [] h

/-- Witness for C8's amended claim: one unparseable field and one missing
field leave the document unchanged, with metadata keys in request order. -/
theorem c8_witness :
    ∃ m, processItem defaultBatchOpts (.obj [("x", .str "hello")]) ["x", "y"] =
        .ok (.obj [("x", .str "hello")], m) ∧
      m.map Prod.fst = firstKeys ["x", "y"] :=
  c8_prop defaultBatchOpts (.obj [("x", .str "hello")]) ["x", "y"] (by decide)

theorem isoUtcZ_ne (u : Datetime) : (isoformatNoTz u ++ ['Z']).isEmpty = false := by
  rw [isoformatNoTz]
  simp [pad4, List.cons_append]

theorem isoUtcZ_no_match (u : Datetime) :
    isoDateOnlyMatch (isoformatNoTz u ++ ['Z']) = false := by
  cases hmm : isoDateOnlyMatch (isoformatNoTz u ++ ['Z']) with
  | false => rfl
  | true =>
    exfalso
    have hlen := isoDateOnlyMatch_length hmm
    rw [List.length_append, isoformatNoTz_length] at hlen
    simp at hlen

theorem isoUtcZ_contains_T (u : Datetime) :
    (isoformatNoTz u ++ ['Z']).contains 'T' = true := by
  refine List.elem_iff.mpr ?_
  rw [isoformatNoTz]
  simp

theorem isoUtcZ_offsetSearch (u : Datetime) :
    offsetSearch (isoformatNoTz u ++ ['Z']) = true := by
  unfold offsetSearch
  rw [List.reverse_append, List.reverse_singleton, List.singleton_append]
  rfl

theorem parse_fuzzy_isoUtcZ {u : Datetime} (hv : ValidDT u) (h1 : 1 ≤ u.year)
    (h2 : u.year ≤ 9999) (h0 : u.tz = some 0) (p a : Bool) (rt : Option String)
    (now : Datetime) :
    parse_fuzzy ⟨isoformatNoTz u ++ ['Z']⟩ p a rt now = some u := by
  have hstrip : pyStrip (isoformatNoTz u ++ ['Z']) = isoformatNoTz u ++ ['Z'] :=
    pyStrip_eq_self (isoZ_no_space u)
  have hiso : isoparse (isoformatNoTz u ++ ['Z']) = some u := by
    rw [isoparse_render hv h1 h2]
    rw [show ({ u with tz := some 0 } : Datetime) = u from by rw [← h0]]
  rw [parse_fuzzy]
  dsimp only
  rw [hstrip]
  rw [if_neg (by rw [isoUtcZ_ne]; simp)]
  rw [isoUtcZ_no_match]
  rw [if_neg (by decide)]
  rw [isoUtcZ_contains_T, if_pos rfl, hiso]

theorem roundtrip_core {u : Datetime} (hv : ValidDT u) (h1 : 1 ≤ u.year)
    (h2 : u.year ≤ 9999) (h0 : u.tz = some 0) (rt : Option String) (ot : String)
    (p a : Bool) (n : Datetime) (hz : ot = "" ∨ (zoneInfo ot).isSome = true) :
    (build_response ⟨isoformatNoTz u ++ ['Z']⟩ rt ot p a n).isoUtc? =
      some ⟨isoformatNoTz u ++ ['Z']⟩ := by
  have hstrip : pyStrip (isoformatNoTz u ++ ['Z']) = isoformatNoTz u ++ ['Z'] :=
    pyStrip_eq_self (isoZ_no_space u)
  have hiso : isoparse (isoformatNoTz u ++ ['Z']) = some u := by
    rw [isoparse_render hv h1 h2]
    rw [show ({ u with tz := some 0 } : Datetime) = u from by rw [← h0]]
  rw [build_response]
  rw [parse_fuzzy_isoUtcZ hv h1 h2 h0 p a rt n]
  simp only [has_time_part_true]
  rw [if_neg (by decide)]
  dsimp only
  rw [hstrip, isoUtcZ_offsetSearch, if_pos (show (true = true) from rfl), hiso]
  dsimp only
  rw [show u.tz.isNone = false from by rw [h0]; rfl]
  simp only [if_neg (show ¬(false = true) from by decide)]
  rcases hz with rfl | hzs
  · rw [if_pos (show ("" : String) = "" from rfl)]
    show some (isoUtcString (astimezone u 0)) = _
    unfold isoUtcString
    rw [astimezone_cancel hv h0 0]
  · obtain ⟨z, hzz⟩ := Option.isSome_iff_exists.mp hzs
    have hot : ot ≠ "" := by
      intro he
      subst he
      rw [show zoneInfo "" = none from rfl] at hzz
      cases hzz
    rw [if_neg hot, hzz]
    show some (isoUtcString (astimezone u z)) = _
    unfold isoUtcString
    rw [astimezone_cancel hv h0 z]


theorem mkResult_ok_inv {tp : Bool} {od : Datetime} {r : PResult}
    (h : mkResult tp od = .ok r) : r.iso_utc = isoUtcString od ∧ r.out_dt = od := by
  unfold mkResult at h
  injection h with h2
  rw [← h2]
  exact ⟨rfl, rfl⟩

theorem toOutZone_ok_inv {tp : Bool} {aw : Datetime} {ot : String} {r : PResult}
    (h : toOutZone tp aw ot = .ok r) :
    r.iso_utc = isoUtcString r.out_dt ∧ (r.out_dt.tz).isSome = true ∧
      (ot = "" ∨ (zoneInfo ot).isSome = true) := by
  unfold toOutZone at h
  split at h
  · obtain ⟨h1, h2⟩ := mkResult_ok_inv h
    refine ⟨by rw [h1, h2], by rw [h2, astimezone_tz]; rfl, Or.inl (by assumption)⟩
  · split at h
    · rename_i off hzz
      obtain ⟨h1, h2⟩ := mkResult_ok_inv h
      exact ⟨by rw [h1, h2], by rw [h2, astimezone_tz]; rfl, Or.inr (by rw [hzz]; rfl)⟩
    · cases h

theorem build_ok_inv {q : String} {rt : Option String} {ot : String} {p a : Bool}
    {n : Datetime} {r : PResult}
    (h : build_response q rt ot p a n = .ok r) :
    r.iso_utc = isoUtcString r.out_dt ∧ (r.out_dt.tz).isSome = true ∧
      (ot = "" ∨ (zoneInfo ot).isSome = true) := by
  rw [build_response] at h
  rcases hpf : parse_fuzzy q p a rt n with _ | parsed <;> rw [hpf] at h
  · cases h
  · simp only [has_time_part_true] at h
    split at h
    · rename_i hcond
      exact absurd hcond (by decide)
    · split at h
      · split at h
        · split at h
          · obtain ⟨h1, h2⟩ := mkResult_ok_inv h
            exact ⟨by rw [h1, h2], by rw [h2, astimezone_tz]; rfl, Or.inl (by assumption)⟩
          · split at h
            · rename_i off hzz
              obtain ⟨h1, h2⟩ := mkResult_ok_inv h
              exact ⟨by rw [h1, h2], by rw [h2, astimezone_tz]; rfl, Or.inr (by rw [hzz]; rfl)⟩
            · exact toOutZone_ok_inv h
        · exact toOutZone_ok_inv h
      · exact toOutZone_ok_inv h

/-- C7: round-trip idempotence.  Every successful `build_response` result
is time-bearing (`has_time_part` is constantly true), and feeding its
`iso_utc` back through `build_response` with the same options yields the
same `iso_utc`: the reparse takes the ISO-with-offset path, whose `Z`
offset is authoritative, and converting to the target zone and back to UTC
cancels.  The `ValidDT`/year-range hypotheses on the UTC rendering of the
result hold for every value the real pipeline produces (Python datetimes
are range-checked at construction); they are stated explicitly because the
model's datetimes are unbounded, and they are discharged by evaluation in
the witness. -/
theorem c7_prop (q : String) (rt : Option String) (ot : String) (p a : Bool)
    (n n2 : Datetime) (r : PResult)
    (hok : build_response q rt ot p a n = .ok r)
    (hv : ValidDT (astimezone r.out_dt 0))
    (hy1 : 1 ≤ (astimezone r.out_dt 0).year)
    (hy2 : (astimezone r.out_dt 0).year ≤ 9999) :
    (build_response r.iso_utc rt ot p a n2).isoUtc? = some r.iso_utc := by
  obtain ⟨hiso, htz, hzone⟩ := build_ok_inv hok
  rw [hiso]
  have h0 : (astimezone r.out_dt 0).tz = some 0 := astimezone_tz _ _
  rw [show isoUtcString r.out_dt =
    (⟨isoformatNoTz (astimezone r.out_dt 0) ++ ['Z']⟩ : String) from rfl]
  exact roundtrip_core hv hy1 hy2 h0 rt ot p a n2 hzone

/-- Witness for C7: the result of parsing `"2025-09-15T15:00:00Z"` into
`America/New_York` reparses (even under a different clock reading) to the
same `iso_utc`. -/
theorem c7_witness :
    (build_response "2025-09-15T15:00:00Z" none "America/New_York" true true now2026).isoUtc? =
      some "2025-09-15T15:00:00Z" :=
  c7_prop "2025-09-15T15:00:00Z" none "America/New_York" true true now2025 now2026
    { iso_utc := "2025-09-15T15:00:00Z", iso_in_tz := "2025-09-15T11:00:00-04:00",
      unix_ms := 1757948400000, year := 2025, month := 9, day := 15, hour := 11,
      minute := 0, second := 0, has_time := true,
      out_dt := ⟨2025, 9, 15, 11, 0, 0, some (-240)⟩ }
    (by rfl) (by decide) (by decide) (by decide)

end DateApp


